import Mathlib

/-!
Verification development for the kiosk chatbot core (src/main.py):
the response cache (`IntelligentCache`), the failover dispatcher
(`MultiModelAIManager.get_response`), model-health tracking
(`MultiModelAIManager.initialize_models`) and the per-turn orchestrator
(`UltraAdvancedKioskChatbot.process_query`).

Python dictionaries are modelled as association lists in insertion order
(Python dicts iterate in insertion order; assignment to an existing key
keeps its position, assignment to a new key appends).  `datetime.now()`
readings are modelled as integer clock values passed in explicitly.
The MD5 digest used by `IntelligentCache._generate_key` is not modelled:
the cache is keyed directly by the combined pre-hash string
(lowercased-trimmed query concatenated with the context), which the digest
fingerprints injectively in intent.  Model invocation (LangChain chain
construction, context-window truncation and the executor call) is
abstracted as a per-candidate oracle outcome: either an exception's
message or a raw result in one of the shapes the source dispatches on.
-/

namespace Kiosk

/-! ## Generic dict operations (Python `dict` as insertion-ordered assoc list) -/

/-- Python `d[k]` lookup returning `none` when the key is absent. -/
def dictGet {α : Type} : List (String × α) → String → Option α
  | [], _ => none
  | (k, v) :: rest, key => if k = key then some v else dictGet rest key

/-- Python `d[k] = v`: overwrite in place when the key exists, else append. -/
def dictSet {α : Type} : List (String × α) → String → α → List (String × α)
  | [], key, v => [(key, v)]
  | (k, v0) :: rest, key, v =>
    if k = key then (k, v) :: rest else (k, v0) :: dictSet rest key v

/-- Python `del d[k]` (no-op here when the key is absent). -/
def dictErase {α : Type} : List (String × α) → String → List (String × α)
  | [], _ => []
  | (k, v) :: rest, key =>
    if k = key then rest else (k, v) :: dictErase rest key

/-- In-place mutation of an existing entry, Python `d[k].field = ...`;
a no-op when the key is absent (Python would raise `KeyError`, a case the
callers below never reach). -/
def dictModify {α : Type} (f : α → α) : List (String × α) → String → List (String × α)
  | [], _ => []
  | (k, v) :: rest, key =>
    if k = key then (k, f v) :: rest else (k, v) :: dictModify f rest key

/-- Python `d.keys()` in iteration order. -/
def dictKeys {α : Type} (d : List (String × α)) : List String := d.map Prod.fst

/-- Effect of `d[k] = v` on the key list: unchanged when the key exists,
appended otherwise. -/
def dictInsertKey (l : List String) (k : String) : List String :=
  if k ∈ l then l else l ++ [k]

/-! ## Python string primitives

Python `str.lower()` and `str.strip()` are modelled character-list-wise
(`Char.toLower` is ASCII-only, which covers the inputs of interest; the
whitespace set is Python's ASCII whitespace). -/

/-- The ASCII whitespace characters Python `str.strip()` removes. -/
def isPyWhitespace (c : Char) : Bool :=
  c = ' ' || c = '\t' || c = '\n' || c = '\r' || c = '\x0b' || c = '\x0c'

/-- Python `str.lower()`. -/
def pyLower (s : String) : String := ⟨s.data.map Char.toLower⟩

/-- Python `str.strip()`: drop leading and trailing whitespace. -/
def pyStrip (s : String) : String :=
  ⟨((s.data.dropWhile isPyWhitespace).reverse.dropWhile isPyWhitespace).reverse⟩

/-! ## Model health tracker (`MultiModelAIManager.model_health`) -/

/-- One health record: `{'healthy': bool, 'last_error': str | None}`. -/
structure Health where
  healthy : Bool
  last_error : Option String
deriving Repr, DecidableEq

abbrev HealthMap := List (String × Health)

/-! ## Raw model results and response normalization (main.py lines 507-519) -/

/-- Shapes a successful model invocation can return, as dispatched on by
`get_response`: an object with a `.content` attribute, a dict with a
`'text'` key, a Python list of responses, or anything else (a plain
string falls here, where `str(result)` is the string itself). -/
inductive RawResult where
  | content (s : String)
  | dictText (s : String)
  | listRes (l : List String)
  | plain (s : String)
deriving Repr, DecidableEq

/-- The shape dispatch of main.py lines 507-519.  `str(x).strip()` on a
string is `String.trim`; `str([])` on the empty list (which falls to the
else branch because of the `len(result) > 0` guard) is the text `[]`. -/
def normalizeResult : RawResult → String
  | .content s => pyStrip s
  | .dictText s => pyStrip s
  | .listRes (x :: _) => pyStrip x
  | .listRes [] => "[]"
  | .plain s => pyStrip s

/-- Outcome of one candidate's invocation: the raised exception's
`str(e)` or the raw result. -/
abbrev InvokeResult := Except String RawResult

/-- Fixed message returned when every candidate fails (main.py line 540). -/
def techDifficulties : String :=
  "I\x27m experiencing technical difficulties. Please try again in a moment."

/-- Fixed message of the unreachable fall-through (main.py line 542). -/
def serviceUnavailable : String := "Service temporarily unavailable."

/-! ## Failover dispatcher (`MultiModelAIManager.get_response`, lines 484-542) -/

/-- The success-path health write (main.py lines 522-523):
`model_health[model_key]['healthy'] = True` for a non-primary key — an
in-place field update that keeps `last_error`. -/
def markHealthyUpdate (health : HealthMap) (key : String) : HealthMap :=
  if key = "primary" then health
  else dictModify (fun r => { r with healthy := true }) health key

/-- The failure-path health write (main.py lines 533-537):
`model_health[model_key] = {'healthy': False, 'last_error': err}` for a
non-primary key — a full overwrite. -/
def markUnhealthyUpdate (health : HealthMap) (key err : String) : HealthMap :=
  if key = "primary" then health
  else dictSet health key ⟨false, some err⟩

/-- The `for attempt, (model_key, model) in enumerate(...)` loop.
Returns `((response, model_key), health, attempted_keys)`; the third
component instruments which candidates were attempted, in order.
When a failure occurs at `attempt == len(self.models)` (the `n`
argument), the loop returns the fixed failure pair. -/
def goResponse : List (String × InvokeResult) → Nat → Nat → HealthMap →
    (String × String) × HealthMap × List String
  | [], _, _, health => ((serviceUnavailable, "error"), health, [])
  | (key, res) :: rest, attempt, n, health =>
    match res with
    | .ok raw =>
      ((normalizeResult raw, key), markHealthyUpdate health key, [key])
    | .error err =>
      if attempt = n then
        ((techDifficulties, "error"), markUnhealthyUpdate health key err, [key])
      else
        ((goResponse rest (attempt + 1) n (markUnhealthyUpdate health key err)).1,
         (goResponse rest (attempt + 1) n (markUnhealthyUpdate health key err)).2.1,
         key :: (goResponse rest (attempt + 1) n (markUnhealthyUpdate health key err)).2.2)

/-- Cumulative effect on the health tracker of a run of failing
non-primary candidates: each gets the full-overwrite unhealthy record. -/
def applyFails : HealthMap → List (String × String) → HealthMap
  | health, [] => health
  | health, p :: l => applyFails (dictSet health p.1 ⟨false, some p.2⟩) l

/-- `MultiModelAIManager.get_response`: iterate over
`[("primary", current_model)] + list(models.items())` with the exhaustion
sentinel `attempt == len(self.models)`. -/
def get_response (primaryRes : InvokeResult) (models : List (String × InvokeResult))
    (health : HealthMap) : (String × String) × HealthMap × List String :=
  goResponse (("primary", primaryRes) :: models) 0 models.length health

/-! ## Model initialization (`MultiModelAIManager.initialize_models`, lines 414-441) -/

/-- The fallback-initialization loop: for each configured
`(provider, model_name)` pair, `model_key = f"{provider.value}_{model_name}"`;
when `_create_model` succeeds both `models[model_key]` and
`model_health[model_key] = {'healthy': True, 'last_error': None}` are set,
when it raises neither is.  `createOk` abstracts whether `_create_model`
succeeds for the pair.  Returns (keys of `models`, `model_health`). -/
def initModelsLoop (createOk : String → String → Bool) :
    List (String × String) → List String × HealthMap → List String × HealthMap
  | [], acc => acc
  | pn :: rest, acc =>
    initModelsLoop createOk rest
      (if createOk pn.1 pn.2 then
        (dictInsertKey acc.1 (pn.1 ++ "_" ++ pn.2),
         dictSet acc.2 (pn.1 ++ "_" ++ pn.2) ⟨true, none⟩)
       else acc)

def initialize_models (fallbacks : List (String × String))
    (createOk : String → String → Bool) : List String × HealthMap :=
  initModelsLoop createOk fallbacks ([], [])

/-! ## Cache (`IntelligentCache`, lines 214-267) -/

/-- One cache entry: `{'response': str, 'timestamp': datetime, 'hits': int}`. -/
structure CacheEntry where
  response : String
  timestamp : Int
  hits : Nat
deriving Repr, DecidableEq

abbrev CacheMap := List (String × CacheEntry)

/-- `IntelligentCache._generate_key` without the MD5 digest: the combined
string `f"{query.lower().strip()}{context}"` that the digest fingerprints. -/
def generate_key (query context : String) : String :=
  pyStrip (pyLower query) ++ context

/-- Python `min(cache.keys(), key=lambda k: cache[k]['timestamp'])`:
the first key (in insertion order) with the minimal timestamp, `none` on
an empty dict (where Python `min` raises `ValueError`). -/
def oldestKey : CacheMap → Option (String × Int)
  | [] => none
  | (k, e) :: rest =>
    match oldestKey rest with
    | none => some (k, e.timestamp)
    | some (k2, t2) => if e.timestamp ≤ t2 then some (k, e.timestamp) else some (k2, t2)

/-- `IntelligentCache.get` at the generated-key level (lines 228-240):
a fresh entry (`now - timestamp < ttl`) has its `hits` bumped and its
response returned; a stale entry is deleted; returns the new map too. -/
def cacheGet (c : CacheMap) (ttl : Int) (key : String) (now : Int) :
    Option String × CacheMap :=
  match dictGet c key with
  | none => (none, c)
  | some e =>
    if now - e.timestamp < ttl then
      (some e.response, dictModify (fun e0 => { e0 with hits := e0.hits + 1 }) c key)
    else
      (none, dictErase c key)

/-- `IntelligentCache.set` at the generated-key level (lines 242-257):
when `len(cache) >= max_size` the oldest-by-timestamp entry is deleted
first; `none` models the `ValueError` Python `min` raises when that
eviction runs on an empty dict (only possible with `max_size = 0`). -/
def cacheSet (c : CacheMap) (maxSize : Nat) (key : String) (response : String)
    (now : Int) : Option CacheMap :=
  if c.length ≥ maxSize then
    match oldestKey c with
    | none => none
    | some (k, _) => some (dictSet (dictErase c k) key ⟨response, now, 0⟩)
  else
    some (dictSet c key ⟨response, now, 0⟩)

/-- A whole-cache operation sequence, used to state the capacity invariant:
each step is a `get` or a `set` at some clock reading. -/
inductive CacheOp where
  | opGet (key : String) (now : Int)
  | opSet (key : String) (response : String) (now : Int)

/-- Run a sequence of cache operations; a `set` whose eviction raises
leaves the cache unchanged (the exception propagates before any insertion). -/
def runCacheOps (maxSize : Nat) (ttl : Int) : CacheMap → List CacheOp → CacheMap
  | c, [] => c
  | c, .opGet k now :: ops => runCacheOps maxSize ttl (cacheGet c ttl k now).2 ops
  | c, .opSet k r now :: ops =>
    match cacheSet c maxSize k r now with
    | some c2 => runCacheOps maxSize ttl c2 ops
    | none => runCacheOps maxSize ttl c ops

/-! ## Orchestrator (`UltraAdvancedKioskChatbot.process_query`, lines 760-843) -/

/-- The configuration fields `process_query` reads (`KioskConfig`). -/
structure Config where
  max_input_length : Nat
  enable_content_filtering : Bool
  enable_analytics : Bool
  cache_ttl_hours : Int
  cache_max_size : Nat
deriving Repr

/-- One conversation-history exchange as the rest of the core reads it
(the `'question'` and `'response'` fields of the appended dict). -/
structure Turn where
  question : String
  response : String
deriving Repr, DecidableEq

/-- The `UserSession` fields `process_query` touches.  Response-time
floats are modelled as integers (abstract duration readings). -/
structure Session where
  questions_count : Nat
  total_response_time : Int
  preferred_language : String
  conversation_history : List Turn
  errors_encountered : Nat
deriving Repr, DecidableEq

/-- The per-turn `metadata` dict. -/
structure Metadata where
  cached : Bool
  model_used : String
  response_time : Int
  language : String
  error : Option String
deriving Repr, DecidableEq

/-- Collaborator invocations performed during a turn, instrumenting which
external calls the orchestrator made (the spec's call-count spies). -/
inductive Effect where
  | cacheLookup
  | aiCall
  | translateCall
  | cacheStore
  | logInteraction
deriving Repr, DecidableEq

/-- State threaded through a turn: the session, the cache, and the trace
of collaborator calls. -/
structure OState where
  session : Session
  cache : CacheMap
  effects : List Effect
deriving Repr, DecidableEq

/-- Fixed rejection message for over-long input (main.py line 778). -/
def tooLongMsg : String := "Please keep your question shorter for better assistance."

/-- Fixed refusal message for filtered content (main.py line 781). -/
def refusalMsg : String :=
  "I can only help with appropriate questions. Please rephrase your request."

/-- Fixed apology of the outermost exception handler (main.py line 833). -/
def processingErrorMsg : String :=
  "I encountered an error processing your request. Please try again."

/-- `_format_conversation_context` (lines 845-858): the last three
exchanges rendered as `User:`/`Assistant:` lines joined by newlines. -/
def format_conversation_context (s : Session) : String :=
  match s.conversation_history with
  | [] => ""
  | h => String.intercalate "\n"
      ((h.drop (h.length - 3)).flatMap
        (fun t => ["User: " ++ t.question, "Assistant: " ++ t.response]))

/-- `_is_inappropriate_content` (lines 860-873): the
`enable_content_filtering` gate is modelled; the regex scan over the
fixed pattern set is abstracted as the predicate `flagged`. -/
def is_inappropriate_content (cfg : Config) (flagged : String → Bool)
    (text : String) : Bool :=
  cfg.enable_content_filtering && flagged text

/-- Everything a turn returns: `(response, metadata)` plus the final state. -/
abbrev TurnOutcome := String × Metadata × OState

/-- The body of `process_query`'s `try` block (lines 776-830).
`aiCall` is the dispatcher outcome (its exception's message or the
`(response, model_used)` pair), `translate` the translation collaborator
(`None` on its internal failure), `logOk` whether
`analytics.log_interaction` raises (SQLite errors propagate out of it).
An `Except.error` carries the exception text together with the metadata
and state at the raise point, since Python mutates them in place. -/
def processInner (cfg : Config) (flagged : String → Bool)
    (aiCall : Except String (String × String)) (translate : String → Option String)
    (logOk : Except String Unit) (now rt : Int) (session : Session)
    (cache : CacheMap) (input : String) : Except TurnOutcome TurnOutcome :=
  let md0 : Metadata := { cached := false, model_used := "unknown",
                          response_time := 0, language := session.preferred_language,
                          error := none }
  if input.length > cfg.max_input_length then
    .ok (tooLongMsg, md0, ⟨session, cache, []⟩)
  else if is_inappropriate_content cfg flagged input then
    .ok (refusalMsg, md0, ⟨session, cache, []⟩)
  else
    let context := format_conversation_context session
    let key := generate_key input context
    let got := cacheGet cache cfg.cache_ttl_hours key now
    let cache1 := got.2
    -- `if cached_response:` is a truthiness test: `None` and `""` both miss.
    let hitVal : Option String := match got.1 with
      | some r => if r = "" then none else some r
      | none => none
    match hitVal with
    | some r =>
      .ok (r, { md0 with cached := true, response_time := rt },
           ⟨session, cache1, [.cacheLookup]⟩)
    | none =>
      match aiCall with
      | .error e => .error (e, md0, ⟨session, cache1, [.cacheLookup, .aiCall]⟩)
      | .ok (resp0, model_used) =>
        -- `if session.preferred_language != "en":` then `if translated:`
        -- (truthiness again: `None` and `""` keep the original).
        let step := if session.preferred_language ≠ "en" then
            (match translate resp0 with
             | some t => if t = "" then resp0 else t
             | none => resp0, [Effect.translateCall])
          else (resp0, [])
        let resp1 := step.1
        let effs1 := [Effect.cacheLookup, Effect.aiCall] ++ step.2
        match cacheSet cache1 cfg.cache_max_size key resp1 now with
        | none =>
          .error ("min() arg is an empty sequence", md0,
                  ⟨session, cache1, effs1 ++ [.cacheStore]⟩)
        | some cache2 =>
          let md := { md0 with model_used := model_used, response_time := rt }
          let session2 : Session :=
            { session with
              questions_count := session.questions_count + 1,
              total_response_time := session.total_response_time + rt,
              conversation_history := session.conversation_history ++ [⟨input, resp1⟩] }
          if cfg.enable_analytics then
            match logOk with
            | .error e =>
              .error (e, md, ⟨session2, cache2, effs1 ++ [.cacheStore, .logInteraction]⟩)
            | .ok _ =>
              .ok (resp1, md, ⟨session2, cache2, effs1 ++ [.cacheStore, .logInteraction]⟩)
          else
            .ok (resp1, md, ⟨session2, cache2, effs1 ++ [.cacheStore]⟩)

/-- `process_query`: the `try`/`except` boundary (lines 832-840).  Any
exception from the steps is converted into the fixed apology, recorded in
`metadata['error']`, and counted on `session.errors_encountered`; nothing
propagates. -/
def process_query (cfg : Config) (flagged : String → Bool)
    (aiCall : Except String (String × String)) (translate : String → Option String)
    (logOk : Except String Unit) (now rt : Int) (session : Session)
    (cache : CacheMap) (input : String) : TurnOutcome :=
  match processInner cfg flagged aiCall translate logOk now rt session cache input with
  | .ok out => out
  | .error (e, md, st) =>
    (processingErrorMsg, { md with error := some e },
     { st with session := { st.session with
         errors_encountered := st.session.errors_encountered + 1 } })

/-! ## Dict lemmas -/

theorem dictGet_dictSet_self {α : Type} (d : List (String × α)) (k : String) (v : α) :
    dictGet (dictSet d k v) k = some v := by
  induction d with
  | nil => simp [dictGet, dictSet]
  | cons hd tl ih =>
    by_cases h : hd.1 = k
    · simp [dictGet, dictSet, h]
    · simp [dictGet, dictSet, h, ih]

theorem dictGet_dictSet_ne {α : Type} (d : List (String × α)) (k k' : String) (v : α)
    (h : k' ≠ k) : dictGet (dictSet d k v) k' = dictGet d k' := by
  have h' : k ≠ k' := Ne.symm h
  induction d with
  | nil => simp [dictGet, dictSet, h']
  | cons hd tl ih =>
    by_cases hk : hd.1 = k
    · have hne : hd.1 ≠ k' := by rw [hk]; exact h'
      simp [dictGet, dictSet, hk, hne, h']
    · by_cases hk' : hd.1 = k'
      · simp [dictGet, dictSet, hk, hk', h]
      · simp [dictGet, dictSet, hk, hk', ih]

theorem dictGet_dictModify_self {α : Type} (f : α → α) (d : List (String × α))
    (k : String) (v : α) (h : dictGet d k = some v) :
    dictGet (dictModify f d k) k = some (f v) := by
  induction d with
  | nil => simp [dictGet] at h
  | cons hd tl ih =>
    by_cases hk : hd.1 = k
    · simp [dictGet, hk] at h
      simp [dictGet, dictModify, hk, h]
    · simp [dictGet, hk] at h
      simp [dictGet, dictModify, hk, ih h]

theorem dictGet_dictModify_ne {α : Type} (f : α → α) (d : List (String × α))
    (k k' : String) (h : k' ≠ k) :
    dictGet (dictModify f d k) k' = dictGet d k' := by
  have h' : k ≠ k' := Ne.symm h
  induction d with
  | nil => simp [dictModify]
  | cons hd tl ih =>
    by_cases hk : hd.1 = k
    · have hne : hd.1 ≠ k' := by rw [hk]; exact h'
      simp [dictGet, dictModify, hk, hne, h']
    · by_cases hk' : hd.1 = k'
      · simp [dictGet, dictModify, hk, hk', h]
      · simp [dictGet, dictModify, hk, hk', ih]

theorem dictKeys_dictModify {α : Type} (f : α → α) (d : List (String × α)) (k : String) :
    dictKeys (dictModify f d k) = dictKeys d := by
  induction d with
  | nil => simp [dictModify]
  | cons hd tl ih =>
    by_cases hk : hd.1 = k
    · simp [dictKeys, dictModify, hk]
    · simpa [dictKeys, dictModify, hk] using ih

theorem dictKeys_dictSet {α : Type} (d : List (String × α)) (k : String) (v : α) :
    dictKeys (dictSet d k v) = dictInsertKey (dictKeys d) k := by
  induction d with
  | nil => simp [dictKeys, dictSet, dictInsertKey]
  | cons hd tl ih =>
    by_cases hk : hd.1 = k
    · simp [dictKeys, dictSet, dictInsertKey, hk]
    · have hkne : k ≠ hd.1 := Ne.symm hk
      simp only [dictSet, if_neg hk, dictKeys, List.map_cons]
      simp only [dictKeys] at ih
      rw [ih]
      by_cases hmem : k ∈ List.map Prod.fst tl
      · simp [dictInsertKey, hmem, hkne]
      · simp [dictInsertKey, hmem, hkne]

theorem dictKeys_dictSet_of_mem {α : Type} (d : List (String × α)) (k : String) (v : α)
    (h : k ∈ dictKeys d) : dictKeys (dictSet d k v) = dictKeys d := by
  rw [dictKeys_dictSet, dictInsertKey, if_pos h]

theorem length_dictModify {α : Type} (f : α → α) (d : List (String × α)) (k : String) :
    (dictModify f d k).length = d.length := by
  induction d with
  | nil => simp [dictModify]
  | cons hd tl ih =>
    by_cases hk : hd.1 = k
    · simp [dictModify, hk]
    · simp [dictModify, hk, ih]

theorem length_dictSet_le {α : Type} (d : List (String × α)) (k : String) (v : α) :
    (dictSet d k v).length ≤ d.length + 1 := by
  induction d with
  | nil => simp [dictSet]
  | cons hd tl ih =>
    by_cases hk : hd.1 = k
    · simp [dictSet, hk]
    · simp only [dictSet, if_neg hk, List.length_cons]
      omega

theorem length_dictErase_of_mem {α : Type} (d : List (String × α)) (k : String)
    (h : k ∈ dictKeys d) : (dictErase d k).length + 1 = d.length := by
  induction d with
  | nil => simp [dictKeys] at h
  | cons hd tl ih =>
    by_cases hk : hd.1 = k
    · simp [dictErase, hk]
    · have : k ∈ dictKeys tl := by
        rcases List.mem_cons.mp h with h1 | h1
        · exact absurd h1.symm hk
        · exact h1
      simp [dictErase, hk, ih this]

theorem length_dictErase_le {α : Type} (d : List (String × α)) (k : String) :
    (dictErase d k).length ≤ d.length := by
  induction d with
  | nil => simp [dictErase]
  | cons hd tl ih =>
    by_cases hk : hd.1 = k
    · simp [dictErase, hk]
    · simp only [dictErase, if_neg hk, List.length_cons]
      omega

theorem dictGet_eq_none_of_not_mem {α : Type} (d : List (String × α)) (k : String)
    (h : k ∉ dictKeys d) : dictGet d k = none := by
  induction d with
  | nil => simp [dictGet]
  | cons hd tl ih =>
    simp only [dictKeys, List.map_cons, List.mem_cons, not_or] at h
    simp only [dictGet, if_neg (Ne.symm h.1)]
    exact ih h.2

theorem dictGet_dictErase_self {α : Type} (d : List (String × α)) (k : String)
    (h : (dictKeys d).Nodup) : dictGet (dictErase d k) k = none := by
  induction d with
  | nil => simp [dictErase, dictGet]
  | cons hd tl ih =>
    simp only [dictKeys, List.map_cons, List.nodup_cons] at h
    by_cases hk : hd.1 = k
    · simp only [dictErase, if_pos hk]
      exact dictGet_eq_none_of_not_mem tl k (fun hm => h.1 (hk ▸ hm))
    · simp only [dictErase, if_neg hk, dictGet, if_neg hk]
      exact ih h.2

/-! ## Cache lemmas -/

theorem oldestKey_isSome (c : CacheMap) (h : c ≠ []) : (oldestKey c).isSome := by
  cases c with
  | nil => simp at h
  | cons hd tl =>
    obtain ⟨k0, e0⟩ := hd
    simp only [oldestKey]
    cases h2 : oldestKey tl with
    | none => simp
    | some p => obtain ⟨k2, t2⟩ := p; by_cases hle : e0.timestamp ≤ t2 <;> simp [hle]

theorem oldestKey_spec (c : CacheMap) (k : String) (t : Int)
    (h : oldestKey c = some (k, t)) :
    (∃ e, (k, e) ∈ c ∧ e.timestamp = t) ∧ ∀ p ∈ c, t ≤ p.2.timestamp := by
  induction c generalizing k t with
  | nil => simp [oldestKey] at h
  | cons hd tl ih =>
    obtain ⟨k0, e0⟩ := hd
    simp only [oldestKey] at h
    cases h2 : oldestKey tl with
    | none =>
      rw [h2] at h
      simp only [Option.some.injEq, Prod.mk.injEq] at h
      obtain ⟨hk, ht⟩ := h
      subst hk
      subst ht
      have htl : tl = [] := by
        by_contra hne
        have hs := oldestKey_isSome tl hne
        rw [h2] at hs
        simp at hs
      subst htl
      refine ⟨⟨e0, List.mem_singleton.mpr rfl, rfl⟩, ?_⟩
      intro p hp
      rw [List.mem_singleton] at hp
      subst hp
      exact le_refl _
    | some p2 =>
      obtain ⟨k2, t2⟩ := p2
      rw [h2] at h
      dsimp only at h
      by_cases hle : e0.timestamp ≤ t2
      · rw [if_pos hle] at h
        simp only [Option.some.injEq, Prod.mk.injEq] at h
        obtain ⟨hk, ht⟩ := h
        subst hk
        subst ht
        refine ⟨⟨e0, List.mem_cons_self _ _, rfl⟩, ?_⟩
        intro p hp
        rcases List.mem_cons.mp hp with h3 | h3
        · subst h3; exact le_refl _
        · exact le_trans hle ((ih k2 t2 h2).2 p h3)
      · rw [if_neg hle] at h
        simp only [Option.some.injEq, Prod.mk.injEq] at h
        obtain ⟨hk, ht⟩ := h
        subst hk
        subst ht
        have ihs := ih _ _ h2
        refine ⟨?_, ?_⟩
        · obtain ⟨e, he, het⟩ := ihs.1
          exact ⟨e, List.mem_cons_of_mem _ he, het⟩
        · intro p hp
          rcases List.mem_cons.mp hp with h3 | h3
          · subst h3
            simp only
            omega
          · exact ihs.2 p h3

theorem cacheGet_length_le (c : CacheMap) (ttl : Int) (key : String) (now : Int) :
    (cacheGet c ttl key now).2.length ≤ c.length := by
  unfold cacheGet
  cases h : dictGet c key with
  | none => simp
  | some e =>
    by_cases hf : now - e.timestamp < ttl
    · simp [hf, length_dictModify]
    · simp [hf, length_dictErase_le]

theorem cacheSet_length_le (c : CacheMap) (maxSize : Nat) (key r : String) (now : Int)
    (c2 : CacheMap) (hc : c.length ≤ maxSize)
    (h : cacheSet c maxSize key r now = some c2) : c2.length ≤ maxSize := by
  unfold cacheSet at h
  by_cases hge : c.length ≥ maxSize
  · rw [if_pos hge] at h
    cases h2 : oldestKey c with
    | none => rw [h2] at h; simp at h
    | some p =>
      obtain ⟨ok, t⟩ := p
      rw [h2] at h
      simp only [Option.some.injEq] at h
      subst h
      have hmem : ok ∈ dictKeys c := by
        obtain ⟨e, he, _⟩ := (oldestKey_spec c ok t h2).1
        exact List.mem_map.mpr ⟨(ok, e), he, rfl⟩
      have h1 := length_dictErase_of_mem c ok hmem
      have h2l := length_dictSet_le (dictErase c ok) key ⟨r, now, 0⟩
      omega
  · rw [if_neg hge] at h
    simp only [Option.some.injEq] at h
    subst h
    have := length_dictSet_le c key ⟨r, now, 0⟩
    omega

theorem runCacheOps_length_le (maxSize : Nat) (ttl : Int) (ops : List CacheOp) :
    ∀ c : CacheMap, c.length ≤ maxSize →
      (runCacheOps maxSize ttl c ops).length ≤ maxSize := by
  induction ops with
  | nil => intro c hc; simpa [runCacheOps] using hc
  | cons op rest ih =>
    intro c hc
    cases op with
    | opGet k now =>
      simp only [runCacheOps]
      exact ih _ (le_trans (cacheGet_length_le c ttl k now) hc)
    | opSet k r now =>
      simp only [runCacheOps]
      cases h : cacheSet c maxSize k r now with
      | none => exact ih c hc
      | some c2 => exact ih c2 (cacheSet_length_le c maxSize k r now c2 hc h)

theorem cacheSet_isSome (c : CacheMap) (maxSize : Nat) (key r : String) (now : Int)
    (h : 1 ≤ maxSize) : (cacheSet c maxSize key r now).isSome := by
  unfold cacheSet
  by_cases hge : c.length ≥ maxSize
  · rw [if_pos hge]
    have hne : c ≠ [] := by
      intro e
      subst e
      simp at hge
      omega
    have hs := oldestKey_isSome c hne
    cases h2 : oldestKey c with
    | none => rw [h2] at hs; simp at hs
    | some p => obtain ⟨k2, t2⟩ := p; simp
  · rw [if_neg hge]; simp

theorem cacheSet_get_self (c : CacheMap) (maxSize : Nat) (key r : String) (now : Int)
    (c2 : CacheMap) (h : cacheSet c maxSize key r now = some c2) :
    dictGet c2 key = some ⟨r, now, 0⟩ := by
  unfold cacheSet at h
  by_cases hge : c.length ≥ maxSize
  · rw [if_pos hge] at h
    cases h2 : oldestKey c with
    | none => rw [h2] at h; simp at h
    | some p =>
      obtain ⟨ok, t⟩ := p
      rw [h2] at h
      simp only [Option.some.injEq] at h
      subst h
      exact dictGet_dictSet_self _ _ _
  · rw [if_neg hge] at h
    simp only [Option.some.injEq] at h
    subst h
    exact dictGet_dictSet_self _ _ _

/-! ## Claims C3 and C4 -/

/-- Claim C3: the cache never exceeds its configured maximum size; when
`set` runs while the map is at capacity it evicts exactly the single
entry with the oldest creation timestamp before inserting, so after any
sequence of get/set operations the entry count is at most `max_size`;
with `max_size = 2`, inserting A (t=0), B (t=1), C (t=2) leaves exactly
{B, C}. -/
theorem C3_cache_capacity :
    (∀ (maxSize : Nat) (ttl : Int) (ops : List CacheOp),
       (runCacheOps maxSize ttl [] ops).length ≤ maxSize) ∧
    (∀ (c : CacheMap) (k : String) (t : Int), oldestKey c = some (k, t) →
       (∃ e, (k, e) ∈ c ∧ e.timestamp = t) ∧ ∀ p ∈ c, t ≤ p.2.timestamp) ∧
    (∀ (c : CacheMap) (maxSize : Nat) (key r : String) (now : Int) (k : String) (t : Int),
       c.length ≥ maxSize → oldestKey c = some (k, t) →
       cacheSet c maxSize key r now = some (dictSet (dictErase c k) key ⟨r, now, 0⟩)) ∧
    runCacheOps 2 24 []
        [CacheOp.opSet "A" "ra" 0, CacheOp.opSet "B" "rb" 1, CacheOp.opSet "C" "rc" 2]
      = [("B", ⟨"rb", 1, 0⟩), ("C", ⟨"rc", 2, 0⟩)] := by
  refine ⟨?_, ?_, ?_, ?_⟩
  · intro maxSize ttl ops
    exact runCacheOps_length_le maxSize ttl ops [] (by simp)
  · intro c k t h
    exact oldestKey_spec c k t h
  · intro c maxSize key r now k t hge h
    unfold cacheSet
    rw [if_pos hge, h]
  · decide

/-- Witness for C3: the second conjunct applied to a concrete two-entry
cache whose oldest entry is A at t=0. -/
theorem C3_cache_capacity_witness :
    (∃ e, (("A", e) ∈ [("A", CacheEntry.mk "ra" 0 0), ("B", CacheEntry.mk "rb" 1 0)]) ∧
       e.timestamp = 0) ∧
    ∀ p ∈ [("A", CacheEntry.mk "ra" 0 0), ("B", CacheEntry.mk "rb" 1 0)],
      (0 : Int) ≤ p.2.timestamp :=
  C3_cache_capacity.2.1 [("A", CacheEntry.mk "ra" 0 0), ("B", CacheEntry.mk "rb" 1 0)]
    "A" 0 (by decide)

/-- Claim C4: a cached entry whose age reaches the TTL is reported absent
and evicted by `get`; a younger entry is returned with its hit count
incremented. -/
theorem C4_cache_ttl (c : CacheMap) (ttl : Int) (query context : String) (now : Int)
    (e : CacheEntry) (hnd : (dictKeys c).Nodup)
    (hget : dictGet c (generate_key query context) = some e) :
    (ttl ≤ now - e.timestamp →
       cacheGet c ttl (generate_key query context) now
         = (none, dictErase c (generate_key query context)) ∧
       dictGet (cacheGet c ttl (generate_key query context) now).2
         (generate_key query context) = none) ∧
    (now - e.timestamp < ttl →
       cacheGet c ttl (generate_key query context) now
         = (some e.response,
            dictModify (fun e0 => { e0 with hits := e0.hits + 1 }) c
              (generate_key query context)) ∧
       dictGet (cacheGet c ttl (generate_key query context) now).2
         (generate_key query context) = some { e with hits := e.hits + 1 }) := by
  constructor
  · intro hexp
    have hnl : ¬ (now - e.timestamp < ttl) := by omega
    constructor
    · simp only [cacheGet, hget]
      rw [if_neg hnl]
    · simp only [cacheGet, hget]
      rw [if_neg hnl]
      exact dictGet_dictErase_self c _ hnd
  · intro hfresh
    constructor
    · simp only [cacheGet, hget]
      rw [if_pos hfresh]
    · simp only [cacheGet, hget]
      rw [if_pos hfresh]
      exact dictGet_dictModify_self _ c _ e hget

/-- Witness for C4: a single fresh entry inserted at t=0 expires at
t=24 (TTL 24) and is still served at t=23 with its hit count bumped. -/
theorem C4_cache_ttl_witness :
    (cacheGet [("k", CacheEntry.mk "resp" 0 0)] 24 (generate_key "k" "") 24
       = (none, dictErase [("k", CacheEntry.mk "resp" 0 0)] (generate_key "k" "")) ∧
     dictGet (cacheGet [("k", CacheEntry.mk "resp" 0 0)] 24 (generate_key "k" "") 24).2
       (generate_key "k" "") = none) ∧
    (cacheGet [("k", CacheEntry.mk "resp" 0 0)] 24 (generate_key "k" "") 23
       = (some "resp",
          dictModify (fun e0 => { e0 with hits := e0.hits + 1 })
            [("k", CacheEntry.mk "resp" 0 0)] (generate_key "k" "")) ∧
     dictGet (cacheGet [("k", CacheEntry.mk "resp" 0 0)] 24 (generate_key "k" "") 23).2
       (generate_key "k" "") = some (CacheEntry.mk "resp" 0 1)) :=
  ⟨(C4_cache_ttl [("k", CacheEntry.mk "resp" 0 0)] 24 "k" "" 24 (CacheEntry.mk "resp" 0 0)
      (by decide) (by decide)).1 (by decide),
   (C4_cache_ttl [("k", CacheEntry.mk "resp" 0 0)] 24 "k" "" 23 (CacheEntry.mk "resp" 0 0)
      (by decide) (by decide)).2 (by decide)⟩

/-! ## Dispatcher lemmas -/

theorem dictKeys_markHealthyUpdate (health : HealthMap) (key : String) :
    dictKeys (markHealthyUpdate health key) = dictKeys health := by
  unfold markHealthyUpdate
  by_cases h : key = "primary"
  · rw [if_pos h]
  · rw [if_neg h]
    exact dictKeys_dictModify _ health key

theorem dictKeys_markUnhealthyUpdate (health : HealthMap) (key err : String)
    (h : key = "primary" ∨ key ∈ dictKeys health) :
    dictKeys (markUnhealthyUpdate health key err) = dictKeys health := by
  unfold markUnhealthyUpdate
  rcases h with h | h
  · rw [if_pos h]
  · by_cases hp : key = "primary"
    · rw [if_pos hp]
    · rw [if_neg hp]
      exact dictKeys_dictSet_of_mem health key _ h

theorem dictGet_markHealthyUpdate_ne (health : HealthMap) (key k : String)
    (h : k ≠ key) : dictGet (markHealthyUpdate health key) k = dictGet health k := by
  unfold markHealthyUpdate
  by_cases hp : key = "primary"
  · rw [if_pos hp]
  · rw [if_neg hp]
    exact dictGet_dictModify_ne _ health key k h

theorem dictGet_markUnhealthyUpdate_ne (health : HealthMap) (key err k : String)
    (h : k ≠ key) : dictGet (markUnhealthyUpdate health key err) k = dictGet health k := by
  unfold markUnhealthyUpdate
  by_cases hp : key = "primary"
  · rw [if_pos hp]
  · rw [if_neg hp]
    exact dictGet_dictSet_ne health key k _ h

theorem applyFails_get_notmem (l : List (String × String)) :
    ∀ (health : HealthMap) (k : String), k ∉ l.map Prod.fst →
      dictGet (applyFails health l) k = dictGet health k := by
  induction l with
  | nil => intro health k _; rfl
  | cons p l' ih =>
    intro health k h
    simp only [List.map_cons, List.mem_cons, not_or] at h
    simp only [applyFails]
    rw [ih _ k h.2]
    exact dictGet_dictSet_ne health p.1 k _ h.1

theorem applyFails_get_mem (l : List (String × String)) :
    ∀ (health : HealthMap) (p : String × String),
      (l.map Prod.fst).Nodup → p ∈ l →
      dictGet (applyFails health l) p.1 = some ⟨false, some p.2⟩ := by
  induction l with
  | nil => intro health p _ hp; cases hp
  | cons q l' ih =>
    intro health p hnd hp
    simp only [List.map_cons, List.nodup_cons] at hnd
    rcases List.mem_cons.mp hp with h1 | h1
    · subst h1
      simp only [applyFails]
      rw [applyFails_get_notmem l' _ p.1 hnd.1]
      exact dictGet_dictSet_self health p.1 _
    · simp only [applyFails]
      exact ih _ p hnd.2 h1

theorem goResponse_fail_then_ok (failed : List (String × String)) (sKey : String)
    (raw : RawResult) (rest : List (String × InvokeResult)) :
    ∀ (a n : Nat) (health : HealthMap),
      "primary" ∉ failed.map Prod.fst → sKey ≠ "primary" →
      a + failed.length ≤ n →
      goResponse (failed.map (fun p => (p.1, Except.error p.2)) ++ (sKey, .ok raw) :: rest)
          a n health
        = ((normalizeResult raw, sKey),
           dictModify (fun r => { r with healthy := true }) (applyFails health failed) sKey,
           failed.map Prod.fst ++ [sKey]) := by
  induction failed with
  | nil =>
    intro a n health _ hsk _
    simp only [List.map_nil, List.nil_append, goResponse, applyFails, markHealthyUpdate]
    rw [if_neg hsk]
  | cons p failed' ih =>
    intro a n health hnp hsk hbound
    obtain ⟨k0, e0⟩ := p
    simp only [List.map_cons, List.mem_cons, not_or] at hnp
    simp only [List.map_cons, List.length_cons] at hbound ⊢
    simp only [List.cons_append, goResponse]
    have hne : a ≠ n := by omega
    rw [if_neg hne]
    simp only [List.append_eq]
    rw [ih (a + 1) n (markUnhealthyUpdate health k0 e0) hnp.2 hsk (by omega)]
    have hk0 : k0 ≠ "primary" := by
      intro heq
      exact hnp.1 heq.symm
    simp only [markUnhealthyUpdate, if_neg hk0, applyFails]

theorem goResponse_all_fail (l : List (String × String)) :
    ∀ (a n : Nat) (health : HealthMap), l ≠ [] → a + l.length = n + 1 →
      (goResponse (l.map (fun p => (p.1, Except.error p.2))) a n health).1
        = (techDifficulties, "error") := by
  induction l with
  | nil => intro a n health hne _; exact absurd rfl hne
  | cons p l' ih =>
    intro a n health _ hlen
    obtain ⟨k0, e0⟩ := p
    simp only [List.map_cons, List.length_cons] at hlen ⊢
    simp only [goResponse]
    by_cases ha : a = n
    · rw [if_pos ha]
    · rw [if_neg ha]
      have hne' : l' ≠ [] := by
        intro he
        subst he
        simp at hlen
        omega
      exact ih (a + 1) n (markUnhealthyUpdate health k0 e0) hne' (by omega)

theorem goResponse_keys (cands : List (String × InvokeResult)) :
    ∀ (a n : Nat) (health : HealthMap),
      (∀ k ∈ dictKeys cands, k = "primary" ∨ k ∈ dictKeys health) →
      dictKeys (goResponse cands a n health).2.1 = dictKeys health := by
  induction cands with
  | nil => intro a n health _; rfl
  | cons c rest ih =>
    intro a n health hk
    obtain ⟨key, res⟩ := c
    simp only [dictKeys, List.map_cons, List.mem_cons] at hk
    have hkey : key = "primary" ∨ key ∈ dictKeys health := hk key (Or.inl rfl)
    cases res with
    | ok raw =>
      simp only [goResponse]
      exact dictKeys_markHealthyUpdate health key
    | error err =>
      have hkeys1 : dictKeys (markUnhealthyUpdate health key err) = dictKeys health :=
        dictKeys_markUnhealthyUpdate health key err hkey
      simp only [goResponse]
      by_cases ha : a = n
      · rw [if_pos ha]
        exact hkeys1
      · rw [if_neg ha]
        rw [ih (a + 1) n (markUnhealthyUpdate health key err)
          (fun k hmem => by
            rcases hk k (Or.inr (by simpa [dictKeys] using hmem)) with h | h
            · exact Or.inl h
            · exact Or.inr (hkeys1 ▸ h))]
        exact hkeys1

theorem goResponse_untouched (cands : List (String × InvokeResult)) :
    ∀ (a n : Nat) (health : HealthMap) (k : String), k ∉ dictKeys cands →
      dictGet (goResponse cands a n health).2.1 k = dictGet health k := by
  induction cands with
  | nil => intro a n health k _; rfl
  | cons c rest ih =>
    intro a n health k hk
    obtain ⟨key, res⟩ := c
    simp only [dictKeys, List.map_cons, List.mem_cons, not_or] at hk
    cases res with
    | ok raw =>
      simp only [goResponse]
      exact dictGet_markHealthyUpdate_ne health key k hk.1
    | error err =>
      simp only [goResponse]
      by_cases ha : a = n
      · rw [if_pos ha]
        exact dictGet_markUnhealthyUpdate_ne health key err k hk.1
      · rw [if_neg ha]
        rw [ih (a + 1) n (markUnhealthyUpdate health key err) k
          (by simpa [dictKeys] using hk.2)]
        exact dictGet_markUnhealthyUpdate_ne health key err k hk.1

theorem key_ne_primary (p n : String) : p ++ "_" ++ n ≠ "primary" := by
  intro h
  have hmem : '_' ∈ (p ++ "_" ++ n).data := by
    rw [String.data_append, String.data_append]
    refine List.mem_append_left _ (List.mem_append_right _ ?_)
    decide
  rw [h] at hmem
  have hnot : '_' ∉ "primary".data := by decide
  exact hnot hmem

theorem initModelsLoop_spec (createOk : String → String → Bool) :
    ∀ (l : List (String × String)) (acc : List String × HealthMap),
      dictKeys acc.2 = acc.1 → "primary" ∉ acc.1 →
      dictKeys (initModelsLoop createOk l acc).2 = (initModelsLoop createOk l acc).1 ∧
      "primary" ∉ (initModelsLoop createOk l acc).1 := by
  intro l
  induction l with
  | nil => intro acc h1 h2; exact ⟨h1, h2⟩
  | cons pn rest ih =>
    intro acc h1 h2
    simp only [initModelsLoop]
    by_cases hc : createOk pn.1 pn.2
    · rw [if_pos hc]
      refine ih _ ?_ ?_
      · simp only [dictKeys_dictSet, h1]
      · intro hmem
        unfold dictInsertKey at hmem
        by_cases hin : pn.1 ++ "_" ++ pn.2 ∈ acc.1
        · rw [if_pos hin] at hmem
          exact h2 hmem
        · rw [if_neg hin] at hmem
          rcases List.mem_append.mp hmem with h3 | h3
          · exact h2 h3
          · exact key_ne_primary pn.1 pn.2 (List.mem_singleton.mp h3).symm
    · rw [if_neg hc]
      exact ih acc h1 h2

/-! ## Claims C1, C2, C9, C10 -/

/-- Claim C1: when the primary and an initial run of fallbacks fail and a
later fallback succeeds, `get_response` returns the first succeeding
candidate's (normalized) response with its model key, attempts exactly
the candidates up to and including it (none after it, none twice), marks
each failed non-primary candidate unhealthy with its error text, marks
the succeeding candidate healthy, and leaves the primary untracked. -/
theorem C1_failover_order (pErr : String) (failed : List (String × String)) (sKey : String)
    (raw : RawResult) (rest : List (String × InvokeResult)) (health : HealthMap) (r0 : Health)
    (out : (String × String) × HealthMap × List String)
    (hnd : ("primary" :: (failed.map Prod.fst ++ sKey :: rest.map Prod.fst)).Nodup)
    (hr : dictGet health sKey = some r0)
    (hout : out = get_response (.error pErr)
        (failed.map (fun p => (p.1, Except.error p.2)) ++ (sKey, .ok raw) :: rest) health) :
    out.1 = (normalizeResult raw, sKey) ∧
    out.2.2 = "primary" :: (failed.map Prod.fst ++ [sKey]) ∧
    out.2.2.Nodup ∧
    (∀ k ∈ rest.map Prod.fst, k ∉ out.2.2) ∧
    (∀ p ∈ failed, dictGet out.2.1 p.1 = some ⟨false, some p.2⟩) ∧
    dictGet out.2.1 sKey = some { r0 with healthy := true } ∧
    dictGet out.2.1 "primary" = dictGet health "primary" := by
  obtain ⟨hp, hrest⟩ := List.nodup_cons.mp hnd
  rw [List.nodup_append] at hrest
  obtain ⟨hnodf, hnodsr, hdisj⟩ := hrest
  obtain ⟨hsnr, hnodr⟩ := List.nodup_cons.mp hnodsr
  have hnpf : "primary" ∉ failed.map Prod.fst := fun hm => hp (List.mem_append_left _ hm)
  have hps : sKey ≠ "primary" := by
    intro he
    refine hp (List.mem_append_right _ ?_)
    rw [← he]
    exact List.mem_cons_self _ _
  have hsf : sKey ∉ failed.map Prod.fst := fun hm => hdisj hm (List.mem_cons_self _ _)
  have hmain : get_response (.error pErr)
      (failed.map (fun p => (p.1, Except.error p.2)) ++ (sKey, .ok raw) :: rest) health
      = ((normalizeResult raw, sKey),
         dictModify (fun r => { r with healthy := true }) (applyFails health failed) sKey,
         "primary" :: (failed.map Prod.fst ++ [sKey])) := by
    unfold get_response
    simp only [goResponse]
    have hn0 : (0 : Nat)
        ≠ (List.length (α := String × InvokeResult)
            (failed.map (fun p => (p.1, Except.error p.2)) ++ (sKey, Except.ok raw) :: rest)) := by
      simp only [List.length_append, List.length_map, List.length_cons]
      omega
    rw [if_neg hn0]
    rw [show markUnhealthyUpdate health "primary" pErr = health from by
      simp [markUnhealthyUpdate]]
    rw [goResponse_fail_then_ok failed sKey raw rest 1 _ health hnpf hps
      (by simp only [List.length_append, List.length_map, List.length_cons]; omega)]
  subst hout
  rw [hmain]
  refine ⟨rfl, rfl, ?_, ?_, ?_, ?_, ?_⟩
  · have hsub : List.Sublist ("primary" :: (failed.map Prod.fst ++ [sKey]))
        ("primary" :: (failed.map Prod.fst ++ sKey :: rest.map Prod.fst)) := by
      apply List.Sublist.cons₂
      exact (List.append_sublist_append_left _).mpr
        (List.cons_sublist_cons.mpr (List.nil_sublist _))
    exact List.Nodup.sublist hsub hnd
  · intro k hk hmem
    rcases List.mem_cons.mp hmem with h1 | h1
    · exact hp (List.mem_append_right _ (h1 ▸ List.mem_cons_of_mem _ hk))
    · rcases List.mem_append.mp h1 with h2 | h2
      · exact hdisj h2 (List.mem_cons_of_mem _ hk)
      · exact hsnr ((List.mem_singleton.mp h2) ▸ hk)
  · intro p hp2
    have hpne : p.1 ≠ sKey := by
      intro he
      refine hdisj (List.mem_map.mpr ⟨p, hp2, rfl⟩) ?_
      rw [he]
      exact List.mem_cons_self _ _
    rw [dictGet_dictModify_ne _ _ sKey p.1 hpne]
    exact applyFails_get_mem failed health p hnodf hp2
  · have hA : dictGet (applyFails health failed) sKey = some r0 := by
      rw [applyFails_get_notmem failed health sKey hsf]
      exact hr
    exact dictGet_dictModify_self _ (applyFails health failed) sKey r0 hA
  · rw [dictGet_dictModify_ne _ _ sKey "primary" (Ne.symm hps)]
    exact applyFails_get_notmem failed health "primary" hnpf

/-- Witness for C1: primary and fallback f1 fail, f2 succeeds with a raw
result that trims to "hi", f3 is never attempted. -/
theorem C1_failover_order_witness :
    (get_response (Except.error "perr")
        [("f1", Except.error "e1"), ("f2", Except.ok (RawResult.plain " hi ")),
         ("f3", Except.error "e3")]
        [("f1", Health.mk true none), ("f2", Health.mk true none),
         ("f3", Health.mk true none)]).1
      = (normalizeResult (RawResult.plain " hi "), "f2") ∧
    (get_response (Except.error "perr")
        [("f1", Except.error "e1"), ("f2", Except.ok (RawResult.plain " hi ")),
         ("f3", Except.error "e3")]
        [("f1", Health.mk true none), ("f2", Health.mk true none),
         ("f3", Health.mk true none)]).2.2
      = ["primary", "f1", "f2"] ∧
    ((get_response (Except.error "perr")
        [("f1", Except.error "e1"), ("f2", Except.ok (RawResult.plain " hi ")),
         ("f3", Except.error "e3")]
        [("f1", Health.mk true none), ("f2", Health.mk true none),
         ("f3", Health.mk true none)]).2.2).Nodup ∧
    (∀ k ∈ ["f3"],
       k ∉ (get_response (Except.error "perr")
        [("f1", Except.error "e1"), ("f2", Except.ok (RawResult.plain " hi ")),
         ("f3", Except.error "e3")]
        [("f1", Health.mk true none), ("f2", Health.mk true none),
         ("f3", Health.mk true none)]).2.2) ∧
    (∀ p ∈ [("f1", "e1")],
       dictGet (get_response (Except.error "perr")
        [("f1", Except.error "e1"), ("f2", Except.ok (RawResult.plain " hi ")),
         ("f3", Except.error "e3")]
        [("f1", Health.mk true none), ("f2", Health.mk true none),
         ("f3", Health.mk true none)]).2.1 p.1 = some ⟨false, some p.2⟩) ∧
    dictGet (get_response (Except.error "perr")
        [("f1", Except.error "e1"), ("f2", Except.ok (RawResult.plain " hi ")),
         ("f3", Except.error "e3")]
        [("f1", Health.mk true none), ("f2", Health.mk true none),
         ("f3", Health.mk true none)]).2.1 "f2"
      = some { Health.mk true none with healthy := true } ∧
    dictGet (get_response (Except.error "perr")
        [("f1", Except.error "e1"), ("f2", Except.ok (RawResult.plain " hi ")),
         ("f3", Except.error "e3")]
        [("f1", Health.mk true none), ("f2", Health.mk true none),
         ("f3", Health.mk true none)]).2.1 "primary"
      = dictGet [("f1", Health.mk true none), ("f2", Health.mk true none),
         ("f3", Health.mk true none)] "primary" :=
  C1_failover_order "perr" [("f1", "e1")] "f2" (RawResult.plain " hi ")
    [("f3", Except.error "e3")]
    [("f1", Health.mk true none), ("f2", Health.mk true none), ("f3", Health.mk true none)]
    (Health.mk true none) _ (by decide) (by decide) rfl

/-- Claim C2: when the primary and every fallback raise (any number of
fallbacks, including zero), `get_response` returns the fixed technical
difficulties message with model key "error".  The embedding is a total
function, so no exception escapes. -/
theorem C2_exhaustion (pErr : String) (fallbacks : List (String × String))
    (health : HealthMap) :
    (get_response (.error pErr) (fallbacks.map (fun p => (p.1, Except.error p.2)))
        health).1
      = (techDifficulties, "error") := by
  unfold get_response
  have hc : ("primary", Except.error (ε := String) (α := RawResult) pErr)
        :: fallbacks.map (fun p => (p.1, Except.error p.2))
      = (("primary", pErr) :: fallbacks).map (fun p => (p.1, Except.error p.2)) := by
    simp
  rw [hc]
  exact goResponse_all_fail (("primary", pErr) :: fallbacks) 0 _ health (by simp)
    (by simp only [List.length_map, List.length_cons]; omega)

/-- Claim C9: a successful invocation's raw payload in any supported
shape — plain string, object with a content/text field, or non-empty
list of alternatives — is normalized to the trimmed payload text before
`get_response` returns, both for the primary and for a succeeding
fallback. -/
theorem C9_response_normalization :
    (∀ s : String, normalizeResult (RawResult.plain s) = pyStrip s) ∧
    (∀ s : String, normalizeResult (RawResult.content s) = pyStrip s) ∧
    (∀ s : String, normalizeResult (RawResult.dictText s) = pyStrip s) ∧
    (∀ (x : String) (l : List String), normalizeResult (RawResult.listRes (x :: l)) = pyStrip x) ∧
    (∀ (raw : RawResult) (models : List (String × InvokeResult)) (health : HealthMap),
       (get_response (.ok raw) models health).1 = (normalizeResult raw, "primary")) ∧
    (∀ (pErr : String) (failed : List (String × String)) (sKey : String) (raw : RawResult)
       (rest : List (String × InvokeResult)) (health : HealthMap),
       "primary" ∉ failed.map Prod.fst → sKey ≠ "primary" →
       (get_response (.error pErr)
           (failed.map (fun p => (p.1, Except.error p.2)) ++ (sKey, .ok raw) :: rest)
           health).1
         = (normalizeResult raw, sKey)) := by
  refine ⟨fun s => rfl, fun s => rfl, fun s => rfl, fun x l => rfl, ?_, ?_⟩
  · intro raw models health
    rfl
  · intro pErr failed sKey raw rest health hnpf hps
    unfold get_response
    simp only [goResponse]
    have hn0 : (0 : Nat)
        ≠ (List.length (α := String × InvokeResult)
            (failed.map (fun p => (p.1, Except.error p.2)) ++ (sKey, Except.ok raw) :: rest)) := by
      simp only [List.length_append, List.length_map, List.length_cons]
      omega
    rw [if_neg hn0]
    rw [show markUnhealthyUpdate health "primary" pErr = health from by
      simp [markUnhealthyUpdate]]
    rw [goResponse_fail_then_ok failed sKey raw rest 1 _ health hnpf hps
      (by simp only [List.length_append, List.length_map, List.length_cons]; omega)]

/-- Witness for C9: the general fallback-success conjunct applied with
one failed fallback before a succeeding one. -/
theorem C9_response_normalization_witness :
    (get_response (Except.error "perr")
        ([("f1", "e1")].map (fun p => (p.1, Except.error p.2))
          ++ ("f2", Except.ok (RawResult.dictText " text ")) :: [])
        [("f1", Health.mk true none), ("f2", Health.mk true none)]).1
      = (normalizeResult (RawResult.dictText " text "), "f2") :=
  C9_response_normalization.2.2.2.2.2 "perr" [("f1", "e1")] "f2"
    (RawResult.dictText " text ") []
    [("f1", Health.mk true none), ("f2", Health.mk true none)]
    (by decide) (by decide)

/-- Claim C10: after initialization the health tracker holds exactly one
record per successfully created fallback (the key sets of `models` and
`model_health` coincide) and never one for the primary; `get_response`
never deletes a record — it preserves the key set and leaves every
unattempted key's record untouched. -/
theorem C10_health_registry :
    (∀ (fallbacks : List (String × String)) (createOk : String → String → Bool),
       dictKeys (initialize_models fallbacks createOk).2
         = (initialize_models fallbacks createOk).1 ∧
       "primary" ∉ dictKeys (initialize_models fallbacks createOk).2) ∧
    (∀ (primaryRes : InvokeResult) (models : List (String × InvokeResult))
       (health : HealthMap),
       (∀ k ∈ dictKeys models, k ∈ dictKeys health) →
       dictKeys (get_response primaryRes models health).2.1 = dictKeys health) ∧
    (∀ (primaryRes : InvokeResult) (models : List (String × InvokeResult))
       (health : HealthMap) (k : String),
       k ≠ "primary" → k ∉ dictKeys models →
       dictGet (get_response primaryRes models health).2.1 k = dictGet health k) := by
  refine ⟨?_, ?_, ?_⟩
  · intro fallbacks createOk
    have hspec := initModelsLoop_spec createOk fallbacks ([], []) rfl (by simp)
    constructor
    · exact hspec.1
    · show "primary" ∉ dictKeys (initModelsLoop createOk fallbacks ([], [])).2
      rw [hspec.1]
      exact hspec.2
  · intro primaryRes models health hmem
    unfold get_response
    apply goResponse_keys
    intro k hk
    simp only [dictKeys, List.map_cons, List.mem_cons] at hk
    rcases hk with h | h
    · exact Or.inl h
    · exact Or.inr (hmem k h)
  · intro primaryRes models health k hk1 hk2
    unfold get_response
    apply goResponse_untouched
    simp only [dictKeys, List.map_cons, List.mem_cons, not_or]
    exact ⟨hk1, hk2⟩

/-- Witness for C10: one configured fallback that initializes
successfully, then a failing dispatch run over it. -/
theorem C10_health_registry_witness :
    (dictKeys (initialize_models [("ollama", "m1")] (fun _ _ => true)).2
       = (initialize_models [("ollama", "m1")] (fun _ _ => true)).1 ∧
     "primary" ∉ dictKeys (initialize_models [("ollama", "m1")] (fun _ _ => true)).2) ∧
    dictKeys (get_response (Except.error "boom") [("ollama_m1", Except.error "x")]
        [("ollama_m1", Health.mk true none)]).2.1
      = dictKeys [("ollama_m1", Health.mk true none)] ∧
    dictGet (get_response (Except.error "boom") [("ollama_m1", Except.error "x")]
        [("ollama_m1", Health.mk true none)]).2.1 "other"
      = dictGet [("ollama_m1", Health.mk true none)] "other" :=
  ⟨C10_health_registry.1 [("ollama", "m1")] (fun _ _ => true),
   C10_health_registry.2.1 (Except.error "boom") [("ollama_m1", Except.error "x")]
     [("ollama_m1", Health.mk true none)] (by decide),
   C10_health_registry.2.2 (Except.error "boom") [("ollama_m1", Except.error "x")]
     [("ollama_m1", Health.mk true none)] "other" (by decide) (by decide)⟩

/-! ## Orchestrator lemmas and claims C5-C8 -/

theorem process_query_of_inner_error (cfg : Config) (flagged : String → Bool)
    (aiCall : Except String (String × String)) (translate : String → Option String)
    (logOk : Except String Unit) (now rt : Int) (session : Session) (cache : CacheMap)
    (input : String) (e : String) (md : Metadata) (st : OState)
    (h : processInner cfg flagged aiCall translate logOk now rt session cache input
          = .error (e, md, st)) :
    process_query cfg flagged aiCall translate logOk now rt session cache input
      = (processingErrorMsg, { md with error := some e },
         { st with session := { st.session with
             errors_encountered := st.session.errors_encountered + 1 } }) := by
  unfold process_query
  rw [h]

theorem process_query_of_inner_ok (cfg : Config) (flagged : String → Bool)
    (aiCall : Except String (String × String)) (translate : String → Option String)
    (logOk : Except String Unit) (now rt : Int) (session : Session) (cache : CacheMap)
    (input : String) (out : TurnOutcome)
    (h : processInner cfg flagged aiCall translate logOk now rt session cache input
          = .ok out) :
    process_query cfg flagged aiCall translate logOk now rt session cache input = out := by
  unfold process_query
  rw [h]

/-- Claim C7: over-long input yields the fixed "too long" message with no
cache lookup, no cache store and no dispatcher call (the effect trace is
empty). -/
theorem C7_input_too_long (cfg : Config) (flagged : String → Bool)
    (aiCall : Except String (String × String)) (translate : String → Option String)
    (logOk : Except String Unit) (now rt : Int) (session : Session) (cache : CacheMap)
    (input : String) (hlen : input.length > cfg.max_input_length) :
    process_query cfg flagged aiCall translate logOk now rt session cache input
      = (tooLongMsg,
         { cached := false, model_used := "unknown", response_time := 0,
           language := session.preferred_language, error := none },
         ⟨session, cache, []⟩) := by
  apply process_query_of_inner_ok
  unfold processInner
  rw [if_pos hlen]

/-- Witness for C7: a 4-character input against a limit of 3. -/
theorem C7_input_too_long_witness :
    process_query (Config.mk 3 true true 24 1000) (fun _ => false)
        (Except.ok ("orig", "primary")) (fun _ => none) (Except.ok ()) 0 1
        (Session.mk 0 0 "en" [] 0) [] "abcd"
      = (tooLongMsg,
         { cached := false, model_used := "unknown", response_time := 0,
           language := "en", error := none },
         ⟨Session.mk 0 0 "en" [] 0, [], []⟩) :=
  C7_input_too_long (Config.mk 3 true true 24 1000) (fun _ => false)
    (Except.ok ("orig", "primary")) (fun _ => none) (Except.ok ()) 0 1
    (Session.mk 0 0 "en" [] 0) [] "abcd" (by decide)

/-- Claim C8: any exception raised inside the per-turn steps is caught at
the orchestrator boundary, converted into the fixed apology message with
the exception text recorded in the metadata, and counted on the session's
`errors_encountered`; the boundary itself is a total function, so nothing
propagates.  The second conjunct instantiates this end-to-end for a
dispatcher-raised exception on a cache miss. -/
theorem C8_unexpected_exception :
    (∀ (cfg : Config) (flagged : String → Bool) (aiCall : Except String (String × String))
       (translate : String → Option String) (logOk : Except String Unit) (now rt : Int)
       (session : Session) (cache : CacheMap) (input : String) (e : String)
       (md : Metadata) (st : OState),
       processInner cfg flagged aiCall translate logOk now rt session cache input
         = .error (e, md, st) →
       process_query cfg flagged aiCall translate logOk now rt session cache input
         = (processingErrorMsg, { md with error := some e },
            { st with session := { st.session with
                errors_encountered := st.session.errors_encountered + 1 } })) ∧
    (∀ (cfg : Config) (flagged : String → Bool) (e : String)
       (translate : String → Option String) (logOk : Except String Unit) (now rt : Int)
       (session : Session) (cache : CacheMap) (input : String),
       ¬ input.length > cfg.max_input_length →
       is_inappropriate_content cfg flagged input = false →
       (cacheGet cache cfg.cache_ttl_hours
          (generate_key input (format_conversation_context session)) now).1 = none →
       process_query cfg flagged (.error e) translate logOk now rt session cache input
         = (processingErrorMsg,
            { cached := false, model_used := "unknown", response_time := 0,
              language := session.preferred_language, error := some e },
            ⟨{ session with errors_encountered := session.errors_encountered + 1 },
             (cacheGet cache cfg.cache_ttl_hours
               (generate_key input (format_conversation_context session)) now).2,
             [Effect.cacheLookup, Effect.aiCall]⟩)) := by
  constructor
  · intro cfg flagged aiCall translate logOk now rt session cache input e md st h
    exact process_query_of_inner_error cfg flagged aiCall translate logOk now rt session
      cache input e md st h
  · intro cfg flagged e translate logOk now rt session cache input hlen hfilter hmiss
    exact process_query_of_inner_error cfg flagged (.error e) translate logOk now rt
      session cache input e
      { cached := false, model_used := "unknown", response_time := 0,
        language := session.preferred_language, error := none }
      ⟨session,
       (cacheGet cache cfg.cache_ttl_hours
         (generate_key input (format_conversation_context session)) now).2,
       [Effect.cacheLookup, Effect.aiCall]⟩
      (by
        unfold processInner
        rw [if_neg hlen, hfilter]
        rw [if_neg Bool.false_ne_true]
        simp only [hmiss])

/-- Witness for C8: the dispatcher raising "boom" on a fresh session with
an empty cache is converted into the fixed apology and an error-count
increment. -/
theorem C8_unexpected_exception_witness :
    process_query (Config.mk 500 true true 24 1000) (fun _ => false)
        (Except.error "boom") (fun _ => none) (Except.ok ()) 0 1
        (Session.mk 0 0 "en" [] 0) [] "hi"
      = (processingErrorMsg,
         { cached := false, model_used := "unknown", response_time := 0,
           language := "en", error := some "boom" },
         ⟨Session.mk 0 0 "en" [] 1,
          (cacheGet [] 24 (generate_key "hi" (format_conversation_context
            (Session.mk 0 0 "en" [] 0))) 0).2,
          [Effect.cacheLookup, Effect.aiCall]⟩) :=
  C8_unexpected_exception.2 (Config.mk 500 true true 24 1000) (fun _ => false) "boom"
    (fun _ => none) (Except.ok ()) 0 1 (Session.mk 0 0 "en" [] 0) [] "hi"
    (by decide) (by decide) (by decide)

/-- Counterexample to claim C5: with preferred language "es", a
dispatcher response "orig" and a successful translation "trad", the value
stored in the cache under the original key is the translated text, not
the pre-translation response — `response` is reassigned to the
translation (main.py line 802) before `cache.set` runs (line 805). -/
theorem C5_counterexample :
    dictGet (process_query (Config.mk 500 true true 24 1000) (fun _ => false)
        (Except.ok ("orig", "primary")) (fun _ => some "trad") (Except.ok ()) 0 1
        (Session.mk 0 0 "es" [] 0) [] "hola").2.2.cache
      (generate_key "hola" "")
      = some (CacheEntry.mk "trad" 0 0) ∧
    ("trad" : String) ≠ "orig" := by
  constructor
  · rfl
  · decide

/-- Claim C5 as amended: on a cache miss with session language ≠ "en" and
a successful non-empty translation, the response cached under the
original key is the post-translation (translated) text. -/
theorem C5_translation_caching (cfg : Config) (flagged : String → Bool)
    (resp0 modelKey t : String) (translate : String → Option String)
    (logOk : Except String Unit) (now rt : Int) (session : Session) (cache : CacheMap)
    (input : String) (cache2 : CacheMap)
    (hlen : ¬ input.length > cfg.max_input_length)
    (hfilter : is_inappropriate_content cfg flagged input = false)
    (hmiss : (cacheGet cache cfg.cache_ttl_hours
        (generate_key input (format_conversation_context session)) now).1 = none)
    (hlang : session.preferred_language ≠ "en")
    (htr : translate resp0 = some t)
    (htne : ¬ t = "")
    (hset : cacheSet (cacheGet cache cfg.cache_ttl_hours
          (generate_key input (format_conversation_context session)) now).2
        cfg.cache_max_size
        (generate_key input (format_conversation_context session)) t now = some cache2) :
    (process_query cfg flagged (.ok (resp0, modelKey)) translate logOk now rt session
        cache input).2.2.cache = cache2 ∧
    dictGet cache2 (generate_key input (format_conversation_context session))
      = some ⟨t, now, 0⟩ := by
  refine ⟨?_, cacheSet_get_self _ _ _ _ _ _ hset⟩
  have hinner : ∀ outcome,
      processInner cfg flagged (.ok (resp0, modelKey)) translate logOk now rt session
        cache input = outcome →
      (match outcome with
       | .ok out => out
       | .error (e, md, st) =>
         (processingErrorMsg, { md with error := some e },
          { st with session := { st.session with
              errors_encountered := st.session.errors_encountered + 1 } })).2.2.cache
        = cache2 := by
    intro outcome houtcome
    rw [← houtcome]
    unfold processInner
    rw [if_neg hlen, hfilter]
    rw [if_neg Bool.false_ne_true]
    simp only [hmiss]
    rw [if_pos hlang, htr]
    dsimp only
    rw [if_neg htne]
    simp only [hset]
    cases hea : cfg.enable_analytics with
    | true =>
      cases logOk with
      | ok u => rfl
      | error le => rfl
    | false => rfl
  have := hinner
    (processInner cfg flagged (.ok (resp0, modelKey)) translate logOk now rt session
      cache input) rfl
  unfold process_query
  revert this
  cases processInner cfg flagged (.ok (resp0, modelKey)) translate logOk now rt session
      cache input with
  | ok out => exact fun h => h
  | error p =>
    obtain ⟨e, md, st⟩ := p
    exact fun h => h

/-- Witness for the amended C5: concrete run with language "es",
dispatcher response "orig" and translation "trad". -/
theorem C5_translation_caching_witness :
    (process_query (Config.mk 500 true true 24 1000) (fun _ => false)
        (Except.ok ("orig", "primary")) (fun _ => some "trad") (Except.ok ()) 0 1
        (Session.mk 0 0 "es" [] 0) [] "hola").2.2.cache
      = [(generate_key "hola" "", CacheEntry.mk "trad" 0 0)] ∧
    dictGet [(generate_key "hola" "", CacheEntry.mk "trad" 0 0)] (generate_key "hola" "")
      = some ⟨"trad", 0, 0⟩ :=
  C5_translation_caching (Config.mk 500 true true 24 1000) (fun _ => false)
    "orig" "primary" "trad" (fun _ => some "trad") (Except.ok ()) 0 1
    (Session.mk 0 0 "es" [] 0) [] "hola"
    [(generate_key "hola" "", CacheEntry.mk "trad" 0 0)]
    (by decide) (by decide) (by decide) (by decide) (by decide) (by decide) (by rfl)

/-- Counterexample to claim C6: a turn answered from the cache passes the
length and content-filter checks and returns with cached=true metadata,
yet the session is unchanged (no history append, no counter increment)
and no analytics interaction event is emitted — the cache hit returns at
main.py line 791, before the session update (813-821) and the analytics
log (823-828). -/
theorem C6_counterexample :
    (process_query (Config.mk 500 true true 24 1000) (fun _ => false)
        (Except.ok ("orig", "primary")) (fun _ => none) (Except.ok ()) 5 1
        (Session.mk 0 0 "en" [] 0) [("hello", CacheEntry.mk "cachedresp" 0 0)]
        "hello").2.1.cached = true ∧
    (process_query (Config.mk 500 true true 24 1000) (fun _ => false)
        (Except.ok ("orig", "primary")) (fun _ => none) (Except.ok ()) 5 1
        (Session.mk 0 0 "en" [] 0) [("hello", CacheEntry.mk "cachedresp" 0 0)]
        "hello").2.2.session = Session.mk 0 0 "en" [] 0 ∧
    Effect.logInteraction ∉ (process_query (Config.mk 500 true true 24 1000) (fun _ => false)
        (Except.ok ("orig", "primary")) (fun _ => none) (Except.ok ()) 5 1
        (Session.mk 0 0 "en" [] 0) [("hello", CacheEntry.mk "cachedresp" 0 0)]
        "hello").2.2.effects := by
  refine ⟨rfl, rfl, ?_⟩
  decide

/-- Claim C6 as amended: a turn that passes both checks and misses the
cache — completing the model call, cache store and (analytics enabled)
interaction log without an exception — appends the turn to the history,
increments the question count and total response time, and emits the
analytics interaction event; a turn answered from the cache instead
returns immediately with cached=true metadata, leaving the session and
the analytics trace untouched. -/
theorem C6_turn_bookkeeping :
    (∀ (cfg : Config) (flagged : String → Bool) (resp0 modelKey : String)
       (translate : String → Option String) (now rt : Int) (session : Session)
       (cache : CacheMap) (input : String),
       ¬ input.length > cfg.max_input_length →
       is_inappropriate_content cfg flagged input = false →
       (cacheGet cache cfg.cache_ttl_hours
          (generate_key input (format_conversation_context session)) now).1 = none →
       1 ≤ cfg.cache_max_size →
       cfg.enable_analytics = true →
       ∃ r : String,
         (process_query cfg flagged (.ok (resp0, modelKey)) translate (.ok ()) now rt
             session cache input).2.2.session.conversation_history
           = session.conversation_history ++ [⟨input, r⟩] ∧
         (process_query cfg flagged (.ok (resp0, modelKey)) translate (.ok ()) now rt
             session cache input).2.2.session.questions_count
           = session.questions_count + 1 ∧
         (process_query cfg flagged (.ok (resp0, modelKey)) translate (.ok ()) now rt
             session cache input).2.2.session.total_response_time
           = session.total_response_time + rt ∧
         Effect.logInteraction ∈ (process_query cfg flagged (.ok (resp0, modelKey))
             translate (.ok ()) now rt session cache input).2.2.effects ∧
         (process_query cfg flagged (.ok (resp0, modelKey)) translate (.ok ()) now rt
             session cache input).1 = r) ∧
    (∀ (cfg : Config) (flagged : String → Bool)
       (aiCall : Except String (String × String)) (translate : String → Option String)
       (logOk : Except String Unit) (now rt : Int) (session : Session) (cache : CacheMap)
       (input : String) (r : String),
       ¬ input.length > cfg.max_input_length →
       is_inappropriate_content cfg flagged input = false →
       (cacheGet cache cfg.cache_ttl_hours
          (generate_key input (format_conversation_context session)) now).1 = some r →
       ¬ r = "" →
       process_query cfg flagged aiCall translate logOk now rt session cache input
         = (r, { cached := true, model_used := "unknown", response_time := rt,
                 language := session.preferred_language, error := none },
            ⟨session,
             (cacheGet cache cfg.cache_ttl_hours
               (generate_key input (format_conversation_context session)) now).2,
             [Effect.cacheLookup]⟩)) := by
  constructor
  · intro cfg flagged resp0 modelKey translate now rt session cache input
      hlen hfilter hmiss hmax hana
    refine ⟨(if session.preferred_language ≠ "en" then
        ((match translate resp0 with
          | some t => if t = "" then resp0 else t
          | none => resp0), [Effect.translateCall])
      else (resp0, ([] : List Effect))).1, ?_⟩
    obtain ⟨cache2, hset⟩ := Option.isSome_iff_exists.mp
      (cacheSet_isSome (cacheGet cache cfg.cache_ttl_hours
          (generate_key input (format_conversation_context session)) now).2
        cfg.cache_max_size
        (generate_key input (format_conversation_context session))
        (if session.preferred_language ≠ "en" then
            ((match translate resp0 with
              | some t => if t = "" then resp0 else t
              | none => resp0), [Effect.translateCall])
          else (resp0, ([] : List Effect))).1
        now hmax)
    have hq : process_query cfg flagged (.ok (resp0, modelKey)) translate (.ok ()) now rt
        session cache input
        = ((if session.preferred_language ≠ "en" then
              ((match translate resp0 with
                | some t => if t = "" then resp0 else t
                | none => resp0), [Effect.translateCall])
            else (resp0, ([] : List Effect))).1,
           { cached := false, model_used := modelKey, response_time := rt,
             language := session.preferred_language, error := none },
           ⟨{ session with
                questions_count := session.questions_count + 1,
                total_response_time := session.total_response_time + rt,
                conversation_history := session.conversation_history
                  ++ [⟨input, (if session.preferred_language ≠ "en" then
                        ((match translate resp0 with
                          | some t => if t = "" then resp0 else t
                          | none => resp0), [Effect.translateCall])
                      else (resp0, ([] : List Effect))).1⟩] },
            cache2,
            ([Effect.cacheLookup, Effect.aiCall]
              ++ (if session.preferred_language ≠ "en" then
                    ((match translate resp0 with
                      | some t => if t = "" then resp0 else t
                      | none => resp0), [Effect.translateCall])
                  else (resp0, ([] : List Effect))).2)
              ++ [Effect.cacheStore, Effect.logInteraction]⟩) := by
      apply process_query_of_inner_ok
      unfold processInner
      rw [if_neg hlen, hfilter]
      rw [if_neg Bool.false_ne_true]
      simp only [hmiss, hset]
      rw [if_pos hana]
    rw [hq]
    refine ⟨rfl, rfl, rfl, ?_, rfl⟩
    simp
  · intro cfg flagged aiCall translate logOk now rt session cache input r
      hlen hfilter hhit hr
    apply process_query_of_inner_ok
    unfold processInner
    rw [if_neg hlen, hfilter]
    rw [if_neg Bool.false_ne_true]
    simp only [hhit]
    rw [if_neg hr]

/-- Witness for the amended C6: one miss-path turn that books the session
and logs analytics, and one hit-path turn that short-circuits. -/
theorem C6_turn_bookkeeping_witness :
    (∃ r : String,
       (process_query (Config.mk 500 true true 24 1000) (fun _ => false)
           (Except.ok ("orig", "primary")) (fun _ => none) (Except.ok ()) 0 1
           (Session.mk 0 0 "en" [] 0) [] "hi").2.2.session.conversation_history
         = ([] : List Turn) ++ [⟨"hi", r⟩] ∧
       (process_query (Config.mk 500 true true 24 1000) (fun _ => false)
           (Except.ok ("orig", "primary")) (fun _ => none) (Except.ok ()) 0 1
           (Session.mk 0 0 "en" [] 0) [] "hi").2.2.session.questions_count = 0 + 1 ∧
       (process_query (Config.mk 500 true true 24 1000) (fun _ => false)
           (Except.ok ("orig", "primary")) (fun _ => none) (Except.ok ()) 0 1
           (Session.mk 0 0 "en" [] 0) [] "hi").2.2.session.total_response_time = 0 + 1 ∧
       Effect.logInteraction ∈ (process_query (Config.mk 500 true true 24 1000)
           (fun _ => false) (Except.ok ("orig", "primary")) (fun _ => none) (Except.ok ())
           0 1 (Session.mk 0 0 "en" [] 0) [] "hi").2.2.effects ∧
       (process_query (Config.mk 500 true true 24 1000) (fun _ => false)
           (Except.ok ("orig", "primary")) (fun _ => none) (Except.ok ()) 0 1
           (Session.mk 0 0 "en" [] 0) [] "hi").1 = r) ∧
    process_query (Config.mk 500 true true 24 1000) (fun _ => false)
        (Except.ok ("orig", "primary")) (fun _ => none) (Except.ok ()) 5 1
        (Session.mk 0 0 "en" [] 0) [("hello", CacheEntry.mk "cachedresp" 0 0)] "hello"
      = ("cachedresp",
         { cached := true, model_used := "unknown", response_time := 1,
           language := "en", error := none },
         ⟨Session.mk 0 0 "en" [] 0,
          (cacheGet [("hello", CacheEntry.mk "cachedresp" 0 0)] 24
            (generate_key "hello" (format_conversation_context (Session.mk 0 0 "en" [] 0)))
            5).2,
          [Effect.cacheLookup]⟩) :=
  ⟨C6_turn_bookkeeping.1 (Config.mk 500 true true 24 1000) (fun _ => false)
     "orig" "primary" (fun _ => none) 0 1 (Session.mk 0 0 "en" [] 0) [] "hi"
     (by decide) (by decide) (by decide) (by decide) (by decide),
   C6_turn_bookkeeping.2 (Config.mk 500 true true 24 1000) (fun _ => false)
     (Except.ok ("orig", "primary")) (fun _ => none) (Except.ok ()) 5 1
     (Session.mk 0 0 "en" [] 0) [("hello", CacheEntry.mk "cachedresp" 0 0)] "hello"
     "cachedresp" (by decide) (by decide) (by decide) (by decide)⟩

end Kiosk
